import Mathlib

/-! # Jobly `Job` model (`src/models/job.js`)

A shallow embedding of the `Job` data-access class and of the statements it
sends to the `jobs` table, followed by theorems about `create`, `findAll`,
`get`, `update` and `remove`.

Conventions of the embedding:

* the database is the list of rows of `jobs` in store order together with the
  handles of the stored companies, the bound of its integer columns, the next
  identifier it will assign and a count of the statements it has executed;
  every operation takes the database and returns its outcome paired with the
  database afterwards, so that the state after a thrown error can be inspected;
* JavaScript strings are Lean strings; `toLowerCase` maps the ASCII letters
  `A`..`Z` (titles outside ASCII are not covered by the case mapping);
* a JavaScript number is `NaN`, an infinity or a rational (every finite double
  is one; `+0` and `-0` are both `0`);
* a value whose conversion is done by the JavaScript engine or by the store
  (a string read as a number, an object turned into a primitive, a text read by
  a typed column) carries the result of that conversion;
* a `NUMERIC` column value, which the driver hands over as decimal text such as
  `"0.56"`, is a coefficient with a scale: `"0.56"` is `⟨56, 2⟩`.
-/

set_option exponentiation.threshold 2000

namespace Jobly

/-! ## Values -/

/-- A `NUMERIC` value `coeff / 10 ^ scale`, read by JavaScript as decimal text. -/
structure Numeric where
  coeff : Int
  scale : Nat
deriving DecidableEq, Repr

/-- A JavaScript number: `NaN`, `Infinity`, `-Infinity` or a finite value. -/
inductive JSNum where
  | nan
  | posInf
  | negInf
  | fin (q : ℚ)
deriving DecidableEq

/-- JavaScript primitive values. A string carries the number that `ToNumber`
reads from it (`'90000'` carries `90000`, `'0'` carries `0`, `'true'` carries
`NaN`). -/
inductive JSPrim where
  | undefined
  | null
  | bool (b : Bool)
  | num (x : JSNum)
  | str (s : String) (asNumber : JSNum)
deriving DecidableEq

/-- JavaScript values that a filter can hold: a primitive, or an object (an
array is one) given by the primitive that its conversion to a primitive
yields: for an array that is its comma-joined text, for an object with its own
`toString` or `valueOf` what that method returns. -/
inductive JSVal where
  | prim (p : JSPrim)
  | obj (conv : JSPrim)
deriving DecidableEq

/-- The error classes of `expressError` that `Job` throws, with their message,
and a failure raised by the database itself. -/
inductive Err where
  | BadRequestError (msg : String)
  | NotFoundError (msg : String)
  | DatabaseError
deriving DecidableEq, Repr

deriving instance DecidableEq for Except

/-! ## JavaScript operators used by `Job` -/

/-- `String.prototype.toLowerCase`, on the characters of the string. -/
def toLowerCase (s : String) : String :=
  String.mk (s.data.map Char.toLower)

/-- Substring search on character lists: does `t` occur in the given list? -/
def includesChars (t : List Char) : List Char → Bool
  | [] => t.isPrefixOf []
  | c :: cs => t.isPrefixOf (c :: cs) || includesChars t cs

/-- `s.includes(t)` of `String.prototype.includes`. -/
def includes (s t : String) : Bool :=
  includesChars t.data s.data

/-- The loose equality `p == 'true'` for a primitive: a string is compared as
is; `undefined` and `null` equal no string; a number or boolean is compared as
a number with `ToNumber('true')`, which is `NaN`, so the comparison is false. -/
def JSPrim.looseEqTrue : JSPrim → Bool
  | .str t _ => t == "true"
  | _ => false

/-- The loose equality `v == 'true'`: an object is first converted to a
primitive. -/
def looseEqTrue : JSVal → Bool
  | .prim p => p.looseEqTrue
  | .obj conv => conv.looseEqTrue

/-- Truthiness of a string: every string but the empty one. -/
def truthyStr (s : String) : Bool :=
  s != ""

/-- Truthiness of a number: every number but zero and `NaN`. -/
def JSNum.truthy : JSNum → Bool
  | .nan => false
  | .fin q => q != 0
  | _ => true

/-- Truthiness of a value: objects are always truthy. -/
def JSVal.truthy : JSVal → Bool
  | .prim .undefined => false
  | .prim .null => false
  | .prim (.bool b) => b
  | .prim (.num x) => x.truthy
  | .prim (.str s _) => truthyStr s
  | .obj _ => true

/-- `ToNumber` of a primitive. -/
def JSPrim.toNumber : JSPrim → JSNum
  | .undefined => .nan
  | .null => .fin 0
  | .bool true => .fin 1
  | .bool false => .fin 0
  | .num x => x
  | .str _ n => n

/-- The number a value is compared as by `>`: an object is first converted to
a primitive. -/
def JSVal.toNumber : JSVal → JSNum
  | .prim p => p.toNumber
  | .obj conv => conv.toNumber

/-- `ToNumber` of a nullable integer column: `null` is `0`. -/
def toNumber : Option Int → Int
  | none => 0
  | some n => n

/-- The comparison `k > x` of an integer with a number; false against `NaN`. -/
def numberGt (k : Int) : JSNum → Bool
  | .nan => false
  | .posInf => false
  | .negInf => true
  | .fin q => decide (q < (k : ℚ))

/-- The comparison `x > 0` for a nullable `NUMERIC` column. `null` is `0`. The
decimal text is converted to the nearest double, so it is positive exactly when
its value exceeds `2 ^ -1075`, half the least positive double: at or below
that the text converts to `0`. -/
def numericGtZero : Option Numeric → Bool
  | none => false
  | some d => decide (10 ^ d.scale < d.coeff.toNat * 2 ^ 1075)

/-! ## The `jobs` table -/

/-- Modelled from the spec: a row of the `jobs` table, whose schema is not
among the sources at hand: identifier (integer, assigned by the store), title
(text), salary (integer, nullable), equity (decimal, nullable) and the
reference to the owning company (text). -/
structure JobRow where
  id : Int
  title : String
  salary : Option Int
  equity : Option Numeric
  company_handle : String
deriving DecidableEq, Repr

/-- The projection `title, salary, equity, company_handle` of a row. -/
structure JobView where
  title : String
  salary : Option Int
  equity : Option Numeric
  company_handle : String
deriving DecidableEq, Repr

/-- The projection `title, salary, equity` of a row. -/
structure JobFields where
  title : String
  salary : Option Int
  equity : Option Numeric
deriving DecidableEq, Repr

/-- Modelled from the spec: the backing store behind `db.query`, which takes a
parameterized statement and gives a row set: the rows of `jobs` in store
order, the handles of the stored companies (the owning-company reference is a
foreign key), the largest value `maxInt` of an integer column (the least is
`-maxInt - 1`; the width of the columns is not among the sources at hand), the
identifier the next inserted row receives, and the number of statements
executed so far. -/
structure Db where
  jobs : List JobRow
  companies : List String
  maxInt : Int
  nextId : Int
  issued : Nat
deriving DecidableEq, Repr

def JobRow.view (r : JobRow) : JobView :=
  { title := r.title, salary := r.salary, equity := r.equity,
    company_handle := r.company_handle }

def JobRow.fields (r : JobRow) : JobFields :=
  { title := r.title, salary := r.salary, equity := r.equity }

/-- The database after one more statement has been executed. -/
def Db.tick (db : Db) : Db :=
  { db with issued := db.issued + 1 }

/-- Does the integer fit an integer column? -/
def inIntRange (maxInt n : Int) : Bool :=
  decide (-maxInt - 1 ≤ n) && decide (n ≤ maxInt)

/-- Modelled from the spec: does the decimal lie in the range `[0, 1]` that the
store demands of an equity? -/
def Numeric.inUnit (d : Numeric) : Bool :=
  decide (0 ≤ d.coeff) && decide (d.coeff.toNat ≤ 10 ^ d.scale)

/-- `SELECT title, salary, equity, company_handle FROM jobs`. -/
def Db.selectJobs (db : Db) : List JobView × Db :=
  (db.jobs.map JobRow.view, db.tick)

/-! ## `Job.findAll` -/

/-- The argument `{ title, minSalary, hasEquity }` of `findAll`; an absent
`title` is `none`, an absent `minSalary` or `hasEquity` is `undefined`. -/
structure Filter where
  title : Option String
  minSalary : JSVal
  hasEquity : JSVal
deriving DecidableEq

/-- The filter `{}`. -/
def Filter.empty : Filter :=
  { title := none, minSalary := .prim .undefined, hasEquity := .prim .undefined }

/-- The filter `{ title }`. -/
def Filter.ofTitle (t : String) : Filter :=
  { title := some t, minSalary := .prim .undefined, hasEquity := .prim .undefined }

/-- The filter `{ minSalary }`. -/
def Filter.ofMinSalary (m : JSVal) : Filter :=
  { title := none, minSalary := m, hasEquity := .prim .undefined }

/-- The filter `{ hasEquity }`. -/
def Filter.ofHasEquity (h : JSVal) : Filter :=
  { title := none, minSalary := .prim .undefined, hasEquity := h }

/-- The step `if (title) jobs = jobs.filter(job => job.title.toLowerCase().includes(title))`. -/
def filterTitle (title : Option String) (jobs : List JobView) : List JobView :=
  match title with
  | none => jobs
  | some t =>
    if truthyStr t then jobs.filter (fun job => includes (toLowerCase job.title) t)
    else jobs

/-- The step `if (minSalary) jobs = jobs.filter(job => job.salary > minSalary)`. -/
def filterMinSalary (minSalary : JSVal) (jobs : List JobView) : List JobView :=
  if minSalary.truthy then
    jobs.filter (fun job => numberGt (toNumber job.salary) minSalary.toNumber)
  else jobs

/-- The step `if (hasEquity == 'true') jobs = jobs.filter(job => job.equity > 0)`. -/
def filterEquity (hasEquity : JSVal) (jobs : List JobView) : List JobView :=
  if looseEqTrue hasEquity then jobs.filter (fun job => numericGtZero job.equity)
  else jobs

/-- `Job.findAll({ title, minSalary, hasEquity } = {})`. -/
def Job.findAll (f : Filter) (db : Db) : Except Err (List JobView) × Db :=
  match db.selectJobs with
  | (rows, db1) =>
    let jobs := rows
    let jobs := filterTitle f.title jobs
    let jobs := filterMinSalary f.minSalary jobs
    let jobs := filterEquity f.hasEquity jobs
    (.ok jobs, db1)

/-! ## `Job.create` -/

/-- The argument `{ company_handle, title, salary, equity }` of `create`. -/
structure NewJob where
  company_handle : String
  title : String
  salary : Option Int
  equity : Option Numeric
deriving DecidableEq, Repr

/-- The row that holds the values of a create input under identifier `id`. -/
def NewJob.row (data : NewJob) (id : Int) : JobRow :=
  { id := id, title := data.title, salary := data.salary, equity := data.equity,
    company_handle := data.company_handle }

/-- `SELECT title FROM jobs WHERE title = $1`. -/
def Db.selectTitle (db : Db) (title : String) : List String × Db :=
  ((db.jobs.filter (fun r => r.title == title)).map JobRow.title, db.tick)

/-- Does the salary fit the integer column (null does)? -/
def salaryFits (maxInt : Int) : Option Int → Bool
  | none => true
  | some n => inIntRange maxInt n

/-- Is the equity within `[0, 1]` (null is)? -/
def equityFits : Option Numeric → Bool
  | none => true
  | some d => d.inUnit

/-- `INSERT INTO jobs (company_handle, title, salary, equity)
VALUES ($1, $2, $3, $4) RETURNING *`. A salary outside the integer column is
rejected when the parameters are bound. Otherwise the next identifier is
drawn, and the row is rejected if its company handle references no stored
company or its equity is outside `[0, 1]`; an accepted row goes to the end of
the table and is returned. -/
def Db.insertJob (db : Db) (company_handle title : String) (salary : Option Int)
    (equity : Option Numeric) : Except Err (List JobRow) × Db :=
  if !salaryFits db.maxInt salary then (.error .DatabaseError, db.tick)
  else if !(db.companies.contains company_handle) || !equityFits equity then
    (.error .DatabaseError, { db.tick with nextId := db.nextId + 1 })
  else
    let row : JobRow :=
      { id := db.nextId, title := title, salary := salary, equity := equity,
        company_handle := company_handle }
    (.ok [row], { db.tick with jobs := db.jobs ++ [row], nextId := db.nextId + 1 })

/-- `Job.create({ company_handle, title, salary, equity })`; the returned
`result.rows[0]` is `none` when it is `undefined`. -/
def Job.create (data : NewJob) (db : Db) : Except Err (Option JobRow) × Db :=
  match db.selectTitle data.title with
  | (duplicateCheck, db1) =>
    match duplicateCheck.head? with
    | some _ => (.error (.BadRequestError ("Duplicate job: " ++ data.title)), db1)
    | none =>
      match db1.insertJob data.company_handle data.title data.salary data.equity with
      | (.error e, db2) => (.error e, db2)
      | (.ok result, db2) =>
        let job := result.head?
        (.ok job, db2)

/-! ## `Job.get` -/

/-- `SELECT company_handle, title, salary, equity FROM jobs WHERE company_handle = $1`. -/
def Db.selectByHandle (db : Db) (handle : String) : List JobView × Db :=
  ((db.jobs.filter (fun r => r.company_handle == handle)).map JobRow.view, db.tick)

/-- `Job.get(handle)`. -/
def Job.get (handle : String) (db : Db) : Except Err JobView × Db :=
  match db.selectByHandle handle with
  | (jobsRes, db1) =>
    match jobsRes.head? with
    | none => (.error (.NotFoundError ("No jobs for company: " ++ handle)), db1)
    | some job => (.ok job, db1)

/-! ## `Job.update` -/

/-- The keys a field-update map may hold. -/
inductive Field where
  | title
  | salary
  | equity
deriving DecidableEq, Repr

/-- The columns of `jobs` that the mapping of `update` names. -/
inductive Col where
  | title
  | salary
  | equity
deriving DecidableEq, Repr

/-- A value bound to a placeholder, as the store receives it: `NULL`, or a
text (a JavaScript string as it is, a number as its decimal text) together with
what the input of an integer column and of a decimal column read from that
text, `none` where they reject it. -/
inductive Val where
  | null
  | text (s : String) (asInt : Option Int) (asNumeric : Option Numeric)
deriving DecidableEq, Repr

/-- The JavaScript integer `n`, or the text of its digits. -/
def Val.ofInt (n : Int) : Val :=
  .text (toString n) (some n) (some ⟨n, 0⟩)

/-- A decimal text such as `'0.99'`, or the number it denotes. -/
def Val.ofDecimal (s : String) (d : Numeric) : Val :=
  .text s none (some d)

/-- A text that is no numeral, such as `'New'` or `'c1'`. -/
def Val.ofText (s : String) : Val :=
  .text s none none

/-- The value inside a template string: `${v}`. -/
def Val.jsString : Val → String
  | .null => "null"
  | .text s _ _ => s

/-- The `data` argument of `update`: the entries of a JavaScript object in
iteration order; an object holds each key once, so the keys of the list are
distinct. -/
abbrev UpdateData := List (Field × Val)

/-- The `SET` clause of an update: `(column, k)` stands for `column = $k`. -/
abbrev SetCols := List (Col × Nat)

/-- The fragments `column = $(idx + 1)` for the keys from position `idx` on. -/
def setFragments (jsToSql : Field → Col) : Nat → List Field → SetCols
  | _, [] => []
  | idx, key :: keys => (jsToSql key, idx + 1) :: setFragments jsToSql (idx + 1) keys

/-- Modelled from the spec: the Partial Update Builder `sqlForPartialUpdate` of
`helpers/sql`, whose source is not part of the sources at hand. Given a
field-update map and the mapping from field names to columns it fails with
BadInput (a `BadRequestError`) when the map has no entry, and otherwise gives
one `column = placeholder` fragment per present key, in map iteration order and
numbered from `$1`, with the parallel list of values. -/
def sqlForPartialUpdate (dataToUpdate : UpdateData) (jsToSql : Field → Col) :
    Except Err (SetCols × List Val) :=
  let keys := dataToUpdate.map Prod.fst
  if keys.length = 0 then .error (.BadRequestError "No data")
  else .ok (setFragments jsToSql 0 keys, dataToUpdate.map Prod.snd)

/-- The mapping `{ title: "title", salary: "salary", equity: "equity" }`. -/
def jobCols : Field → Col
  | .title => .title
  | .salary => .salary
  | .equity => .equity

/-- Can the store read the value as one of the column's type when the
parameters are bound? `NULL` binds to every type, every text to a text column,
to the integer column a text that reads as an integer within the column's
range, to the decimal column a text that reads as a decimal. -/
def Val.readable (maxInt : Int) : Col → Val → Bool
  | _, .null => true
  | .title, .text _ _ _ => true
  | .salary, .text _ (some n) _ => inIntRange maxInt n
  | .equity, .text _ _ (some _) => true
  | _, _ => false

/-- The row with one column set, `none` when the store rejects the value: a
title may not be null, a salary must read as an integer of the column's range,
an equity as a decimal within `[0, 1]`; salary and equity may be null. -/
def JobRow.write (maxInt : Int) (r : JobRow) : Col → Val → Option JobRow
  | .title, .text s _ _ => some { r with title := s }
  | .salary, .null => some { r with salary := none }
  | .salary, .text _ (some n) _ =>
    if inIntRange maxInt n then some { r with salary := some n } else none
  | .equity, .null => some { r with equity := none }
  | .equity, .text _ _ (some d) =>
    if d.inUnit then some { r with equity := some d } else none
  | _, _ => none

/-- All assignments of a `SET` clause applied to a row, left to right. -/
def JobRow.writeAll (maxInt : Int) (r : JobRow) : List (Col × Val) → Option JobRow
  | [] => some r
  | (col, v) :: rest =>
    match r.write maxInt col v with
    | some r1 => r1.writeAll maxInt rest
    | none => none

/-- The rows with the assignments applied, `none` if one of them is rejected. -/
def writeRows (maxInt : Int) (assigns : List (Col × Val)) : List JobRow → Option (List JobRow)
  | [] => some []
  | r :: rs =>
    match r.writeAll maxInt assigns, writeRows maxInt assigns rs with
    | some r1, some rs1 => some (r1 :: rs1)
    | _, _ => none

/-- The value bound to placeholder `$k`. -/
def bound (params : List Val) (k : Nat) : Option Val :=
  if k = 0 then none else params.get? (k - 1)

/-- The assignments `column := value` of a `SET` clause once its placeholders
are bound; `none` when a placeholder has no value. -/
def bindSet (params : List Val) : SetCols → Option (List (Col × Val))
  | [] => some []
  | (col, k) :: rest =>
    match bound params k, bindSet params rest with
    | some v, some more => some ((col, v) :: more)
    | _, _ => none

/-- The identifier a `WHERE id = $k` compares with: `some none` for `NULL`,
which equals no identifier, `some (some n)` for a text that reads as an integer
of the column's range, `none` when the store rejects the value. -/
def readId (maxInt : Int) : Val → Option (Option Int)
  | .null => some none
  | .text _ (some n) _ => if inIntRange maxInt n then some (some n) else none
  | .text _ none _ => none

/-- `UPDATE jobs SET <setCols> WHERE id = $<whereIdx> RETURNING title, salary, equity`
with the given parameters. The statement fails with an empty `SET` clause, an
unbound placeholder, two assignments to one column, a parameter the store
cannot read as its column's type, or a matching row that would break a
constraint; a failed statement changes nothing. Otherwise the new version of
every row with the identifier is stored behind the untouched rows, and the new
versions are returned. -/
def Db.updateJobs (db : Db) (setCols : SetCols) (whereIdx : Nat) (params : List Val) :
    Except Err (List JobFields) × Db :=
  match bindSet params setCols, (bound params whereIdx).bind (readId db.maxInt) with
  | some assigns, some target =>
    if assigns.isEmpty || !(assigns.map Prod.fst).Nodup
        || !(assigns.all (fun a => a.2.readable db.maxInt a.1)) then
      (.error .DatabaseError, db.tick)
    else
      let hit := fun (r : JobRow) => target == some r.id
      match writeRows db.maxInt assigns (db.jobs.filter hit) with
      | none => (.error .DatabaseError, db.tick)
      | some updated =>
        ( .ok (updated.map JobRow.fields),
          { db.tick with jobs := db.jobs.filter (fun r => !hit r) ++ updated } )
  | _, _ => (.error .DatabaseError, db.tick)

/-- `Job.update(id, data)`. -/
def Job.update (id : Val) (data : UpdateData) (db : Db) : Except Err JobFields × Db :=
  match sqlForPartialUpdate data jobCols with
  | .error e => (.error e, db)
  | .ok (setCols, values) =>
    let handleVarIdx := values.length + 1
    match db.updateJobs setCols handleVarIdx (values ++ [id]) with
    | (.error e, db1) => (.error e, db1)
    | (.ok rows, db1) =>
      match rows.head? with
      | none => (.error (.NotFoundError ("No company: " ++ id.jsString)), db1)
      | some job => (.ok job, db1)

/-! ## `Job.remove` -/

/-- `DELETE FROM jobs WHERE id = $1 RETURNING *`; the statement fails when the
store cannot read the parameter as an identifier. -/
def Db.deleteJob (db : Db) (id : Val) : Except Err (List JobRow) × Db :=
  match readId db.maxInt id with
  | none => (.error .DatabaseError, db.tick)
  | some target =>
    (.ok (db.jobs.filter (fun r => target == some r.id)),
     { db.tick with jobs := db.jobs.filter (fun r => !(target == some r.id)) })

/-- `Job.remove(id)`. -/
def Job.remove (id : Val) (db : Db) : Except Err Unit × Db :=
  match db.deleteJob id with
  | (.error e, db1) => (.error e, db1)
  | (.ok result, db1) =>
    match result.head? with
    | none => (.error (.NotFoundError ("No company: " ++ id.jsString)), db1)
    | some _ => (.ok (), db1)

/-! ## The update as the specification words it -/

/-- Does the store accept the value for the field: a text for `title`, an
integer of the column's range or null for `salary`, a decimal within `[0, 1]`
or null for `equity`? -/
def Val.accepted (maxInt : Int) : Field → Val → Bool
  | .title, .text _ _ _ => true
  | .salary, .null => true
  | .salary, .text _ (some n) _ => inIntRange maxInt n
  | .equity, .null => true
  | .equity, .text _ _ (some d) => d.inUnit
  | _, _ => false

/-- Every value of the map is one the store accepts for its field. -/
def Accepted (maxInt : Int) (data : UpdateData) : Prop :=
  ∀ e ∈ data, e.2.accepted maxInt e.1 = true

instance (maxInt : Int) (data : UpdateData) : Decidable (Accepted maxInt data) := by
  unfold Accepted
  infer_instance

/-- Every value of the map is one the store can read for its field's column. -/
def Readable (maxInt : Int) (data : UpdateData) : Prop :=
  ∀ e ∈ data, e.2.readable maxInt (jobCols e.1) = true

instance (maxInt : Int) (data : UpdateData) : Decidable (Readable maxInt data) := by
  unfold Readable
  infer_instance

/-- The value the map holds for a key, if the key is present. -/
def valueOf (data : UpdateData) (key : Field) : Option Val :=
  (data.find? (fun e => e.1 == key)).map Prod.snd

/-- The job after a partial update in the words of the specification: a
present key sets its column to the supplied value (null sets it to null), an
absent key leaves the column as it was; identifier and company handle stay. -/
def JobRow.patched (r : JobRow) (data : UpdateData) : JobRow :=
  { id := r.id
    title :=
      match valueOf data .title with
      | some (.text s _ _) => s
      | _ => r.title
    salary :=
      match valueOf data .salary with
      | some (.text _ (some n) _) => some n
      | some .null => none
      | _ => r.salary
    equity :=
      match valueOf data .equity with
      | some (.text _ _ (some d)) => some d
      | some .null => none
      | _ => r.equity
    company_handle := r.company_handle }

/-! ## Test data -/

/-- The three jobs of the test fixture, as `findAll` lists them. -/
def fixtureJobs : List JobRow :=
  [ { id := 1, title := "engineer", salary := some 80000, equity := some ⟨0, 0⟩,
      company_handle := "c1" },
    { id := 2, title := "doctor", salary := some 100000, equity := some ⟨7, 2⟩,
      company_handle := "c2" },
    { id := 3, title := "lawyer", salary := some 120000, equity := some ⟨893, 3⟩,
      company_handle := "c3" } ]

/-- The fixture: three jobs of the companies `c1`, `c2`, `c3` in a store with
32-bit integer columns. -/
def fixtureDb : Db :=
  { jobs := fixtureJobs, companies := ["c1", "c2", "c3"], maxInt := 2147483647,
    nextId := 4, issued := 0 }

/-- A store with a single job whose salary is zero. -/
def internDb : Db :=
  { fixtureDb with
    jobs := [ { id := 1, title := "intern", salary := some 0, equity := none,
                company_handle := "c1" } ],
    nextId := 2 }

/-- A store with a single job that has no salary. -/
def volunteerDb : Db :=
  { fixtureDb with
    jobs := [ { id := 1, title := "volunteer", salary := none, equity := none,
                company_handle := "c1" } ],
    nextId := 2 }

/-- A store with a single job whose equity is `1e-400`: positive, and too
small for a double. -/
def tinyEquityDb : Db :=
  { fixtureDb with
    jobs := [ { id := 1, title := "founder", salary := some 1, equity := some ⟨1, 400⟩,
                company_handle := "c1" } ],
    nextId := 2 }

/-- A store in which the company `c1` has two jobs. -/
def twoJobsDb : Db :=
  { fixtureDb with
    jobs := fixtureJobs ++
      [ { id := 4, title := "analyst", salary := some 90000, equity := none,
          company_handle := "c1" } ],
    nextId := 5 }

/-- The array `['true']`, which the query string `hasEquity[]=true` produces:
its conversion to a primitive is the joined text `'true'`. -/
def arrayOfTrue : JSVal :=
  .obj (.str "true" .nan)

/-- The update data `{salary: 280000, equity: '0.99'}` of the tests. -/
def updateData : UpdateData :=
  [(.salary, Val.ofInt 280000), (.equity, Val.ofDecimal "0.99" ⟨99, 2⟩)]

/-! ## Predicates of the specification -/

/-- The integer `k` is strictly greater than the number `x`; nothing is
greater than `NaN`. -/
def JSNum.below (x : JSNum) (k : Int) : Prop :=
  match x with
  | .nan => False
  | .posInf => False
  | .negInf => True
  | .fin q => q < (k : ℚ)

instance (x : JSNum) (k : Int) : Decidable (x.below k) := by
  unfold JSNum.below
  split <;> infer_instance

/-- The job's salary, with a null salary counting as `0`, is strictly greater
than `x`. -/
def SalaryAbove (x : JSNum) (r : JobRow) : Prop :=
  x.below (toNumber r.salary)

instance (x : JSNum) (r : JobRow) : Decidable (SalaryAbove x r) := by
  unfold SalaryAbove
  infer_instance

/-- The job has a salary and it is strictly greater than `x`. -/
def HasSalaryAbove (x : JSNum) (r : JobRow) : Prop :=
  match r.salary with
  | some s => x.below s
  | none => False

instance (x : JSNum) (r : JobRow) : Decidable (HasSalaryAbove x r) := by
  unfold HasSalaryAbove
  split <;> infer_instance

/-- The job has an equity that is strictly greater than zero as a JavaScript
number, that is, whose value exceeds `2 ^ -1075`. -/
def HasEquity (r : JobRow) : Prop :=
  match r.equity with
  | some d => 10 ^ d.scale < d.coeff.toNat * 2 ^ 1075
  | none => False

instance (r : JobRow) : Decidable (HasEquity r) := by
  unfold HasEquity
  split <;> infer_instance

/-- The job has an equity and its exact value is strictly greater than zero. -/
def HasPositiveEquity (r : JobRow) : Prop :=
  match r.equity with
  | some d => 0 < d.coeff
  | none => False

instance (r : JobRow) : Decidable (HasPositiveEquity r) := by
  unfold HasPositiveEquity
  split <;> infer_instance

/-- The job's title, lower-cased, contains the text `t` as it stands. -/
def TitleHas (t : String) (r : JobRow) : Prop :=
  ∃ pre post : List Char, (toLowerCase r.title).data = pre ++ t.data ++ post

/-! ## Lemmas on `findAll` -/

theorem findAll_unfold (f : Filter) (db : Db) :
    Job.findAll f db =
      (.ok (filterEquity f.hasEquity (filterMinSalary f.minSalary
        (filterTitle f.title (db.jobs.map JobRow.view)))), db.tick) := rfl

theorem filter_view (p : JobView → Bool) (q : JobRow → Bool) (rows : List JobRow)
    (hpq : ∀ r, p r.view = q r) :
    (rows.map JobRow.view).filter p = (rows.filter q).map JobRow.view := by
  induction rows with
  | nil => rfl
  | cons r rs ih =>
    simp only [List.map_cons, List.filter_cons, hpq r, ih]
    cases q r <;> simp

theorem includesChars_iff (t s : List Char) :
    includesChars t s = true ↔ ∃ pre post, s = pre ++ t ++ post := by
  induction s with
  | nil =>
    simp only [includesChars]
    constructor
    · intro h
      cases t with
      | nil => exact ⟨[], [], rfl⟩
      | cons a as => simp [List.isPrefixOf] at h
    · rintro ⟨pre, post, h⟩
      have h1 : t = [] := by
        cases t with
        | nil => rfl
        | cons a as =>
          have := congrArg List.length h
          simp at this
          omega
      subst h1
      rfl
  | cons c cs ih =>
    simp only [includesChars, Bool.or_eq_true, ih, List.isPrefixOf_iff_prefix]
    constructor
    · rintro (⟨post, h⟩ | ⟨pre, post, h⟩)
      · exact ⟨[], post, by simpa using h.symm⟩
      · exact ⟨c :: pre, post, by simp [h]⟩
    · rintro ⟨pre, post, h⟩
      cases pre with
      | nil => exact Or.inl ⟨post, by simpa using h.symm⟩
      | cons a as =>
        simp only [List.cons_append, List.cons.injEq] at h
        exact Or.inr ⟨as, post, h.2⟩

theorem filterTitle_sublist (t : Option String) (l : List JobView) :
    (filterTitle t l).Sublist l := by
  unfold filterTitle
  split
  · exact List.Sublist.refl l
  · split
    · exact List.filter_sublist l
    · exact List.Sublist.refl l

theorem filterMinSalary_sublist (m : JSVal) (l : List JobView) :
    (filterMinSalary m l).Sublist l := by
  unfold filterMinSalary
  split
  · exact List.filter_sublist l
  · exact List.Sublist.refl l

theorem filterEquity_sublist (h : JSVal) (l : List JobView) :
    (filterEquity h l).Sublist l := by
  unfold filterEquity
  split
  · exact List.filter_sublist l
  · exact List.Sublist.refl l

/-- Each step of `findAll` is a `List.filter` by some predicate. -/
theorem filterTitle_eq (t : Option String) :
    ∃ p : JobView → Bool, ∀ l, filterTitle t l = l.filter p := by
  unfold filterTitle
  cases t with
  | none => exact ⟨fun _ => true, fun l => by simp⟩
  | some t =>
    by_cases h : truthyStr t = true
    · exact ⟨fun job => includes (toLowerCase job.title) t, fun l => by simp [h]⟩
    · exact ⟨fun _ => true, fun l => by simp [h]⟩

theorem filterMinSalary_eq (m : JSVal) :
    ∃ p : JobView → Bool, ∀ l, filterMinSalary m l = l.filter p := by
  unfold filterMinSalary
  by_cases h : m.truthy = true
  · exact ⟨fun job => numberGt (toNumber job.salary) m.toNumber, fun l => by simp [h]⟩
  · exact ⟨fun _ => true, fun l => by simp [h]⟩

theorem filterEquity_eq (h : JSVal) :
    ∃ p : JobView → Bool, ∀ l, filterEquity h l = l.filter p := by
  unfold filterEquity
  by_cases hh : looseEqTrue h = true
  · exact ⟨fun job => numericGtZero job.equity, fun l => by simp [hh]⟩
  · exact ⟨fun _ => true, fun l => by simp [hh]⟩

theorem numberGt_iff (k : Int) (x : JSNum) : numberGt k x = decide (x.below k) := by
  cases x <;> simp [numberGt, JSNum.below]

theorem filterTitle_none (l : List JobView) : filterTitle none l = l := rfl

theorem filterMinSalary_undefined (l : List JobView) :
    filterMinSalary (.prim .undefined) l = l := rfl

theorem filterEquity_undefined (l : List JobView) :
    filterEquity (.prim .undefined) l = l := rfl

/-! ## Theorems on `findAll` -/

/-- What the title filter of `findAll` selects: for a non-empty text `t` the
result holds, in store order, the views of the jobs whose lower-cased title
contains `t` as it stands. -/
theorem findAll_title_verbatim (db : Db) (t : String) (ht : t ≠ "") :
    Job.findAll (Filter.ofTitle t) db =
        (.ok ((db.jobs.filter (fun r => includes (toLowerCase r.title) t)).map JobRow.view),
          db.tick)
    ∧ ∀ r, includes (toLowerCase r.title) t = true ↔ TitleHas t r := by
  constructor
  · rw [findAll_unfold]
    have h1 : truthyStr t = true := by simpa [truthyStr] using ht
    simp only [Filter.ofTitle, filterMinSalary_undefined, filterEquity_undefined, filterTitle,
      h1, if_true]
    rw [filter_view _ (fun r => includes (toLowerCase r.title) t) db.jobs (fun r => rfl)]
  · intro r
    unfold includes TitleHas
    exact includesChars_iff _ _

theorem toLower_not_upper (c : Char) : (Char.toLower c).isUpper = false := by
  by_cases h : 65 ≤ c.toNat ∧ c.toNat ≤ 90
  · have hc : c = Char.ofNat c.toNat := (Char.ofNat_toNat c).symm
    obtain ⟨h1, h2⟩ := h
    rw [hc]
    generalize c.toNat = n at h1 h2
    interval_cases n <;> decide
  · have h3 : Char.toLower c = c := by
      unfold Char.toLower
      simp only [ge_iff_le]
      rw [if_neg h]
    rw [h3]
    unfold Char.isUpper
    simp only [ge_iff_le, Bool.and_eq_false_imp, decide_eq_true_eq, decide_eq_false_iff_not]
    intro h4 h5
    exact h ⟨by simpa [Char.toNat, UInt32.le_def] using h4,
      by simpa [Char.toNat, UInt32.le_def] using h5⟩

/-- The general form of the behaviour behind C1: whatever is stored, a title
filter that holds an upper-case ASCII letter selects no job at all. -/
theorem findAll_title_with_uppercase (db : Db) (t : String)
    (h : ∃ c ∈ t.data, c.isUpper = true) :
    Job.findAll (Filter.ofTitle t) db = (.ok [], db.tick) := by
  obtain ⟨c, hc, hup⟩ := h
  have ht : t ≠ "" := by
    intro h0
    rw [h0] at hc
    cases hc
  obtain ⟨h1, h2⟩ := findAll_title_verbatim db t ht
  rw [h1]
  have h3 : db.jobs.filter (fun r => includes (toLowerCase r.title) t) = [] := by
    rw [List.filter_eq_nil_iff]
    intro r _ hinc
    obtain ⟨pre, post, hpp⟩ := (h2 r).mp hinc
    have hmem : c ∈ (toLowerCase r.title).data := by
      rw [hpp]
      simp [hc]
    have hmem2 : c ∈ r.title.data.map Char.toLower := hmem
    obtain ⟨c0, _, hc0⟩ := List.mem_map.mp hmem2
    have := toLower_not_upper c0
    rw [hc0, hup] at this
    cases this
  rw [h3]
  rfl

/-- C1 (the code at the failing input): with the fixture jobs "engineer",
"doctor" and "lawyer", the title filters "ENG" and "Eng" select nothing, while
"eng" selects the job titled "engineer": the filter text is compared as it
stands with the lower-cased title, so letter case is not ignored on the side
of the filter. -/
theorem findAll_title_uppercase_filter :
    (Job.findAll (Filter.ofTitle "ENG") fixtureDb).1 = .ok []
    ∧ (Job.findAll (Filter.ofTitle "Eng") fixtureDb).1 = .ok []
    ∧ (Job.findAll (Filter.ofTitle "eng") fixtureDb).1
        = .ok [⟨"engineer", some 80000, some ⟨0, 0⟩, "c1"⟩] := by
  decide

/-- C2 (counterexample): (1) on a store whose only job has salary `0`,
`findAll({minSalary: 0})` returns that job, although no stored salary is
strictly greater than `0`; (2) on the fixture, `findAll({minSalary: NaN})`
returns all three jobs, although no salary is greater than `NaN`; (3) on a
store whose only job has no salary, `findAll({minSalary: -1})` returns that
job, although it has no salary that could be greater. -/
theorem findAll_minSalary_counterexample :
    ((Job.findAll (Filter.ofMinSalary (.prim (.num (.fin 0)))) internDb).1
        = .ok [⟨"intern", some 0, none, "c1"⟩]
      ∧ internDb.jobs.filter (fun r => decide (HasSalaryAbove (.fin 0) r)) = [])
    ∧ ((Job.findAll (Filter.ofMinSalary (.prim (.num .nan))) fixtureDb).1
        = .ok (fixtureDb.jobs.map JobRow.view)
      ∧ fixtureDb.jobs.filter (fun r => decide (HasSalaryAbove .nan r)) = [])
    ∧ ((Job.findAll (Filter.ofMinSalary (.prim (.num (.fin (-1))))) volunteerDb).1
        = .ok [⟨"volunteer", none, none, "c1"⟩]
      ∧ volunteerDb.jobs.filter (fun r => decide (HasSalaryAbove (.fin (-1)) r)) = []) := by
  decide

/-- C2 (amended): for every store and every numeric `minSalary` other than
zero and `NaN` (infinities and fractions included), `findAll({minSalary})`
returns, in store order, exactly the stored records whose salary, a null
salary counting as `0`, is strictly greater than `minSalary`, so that a record
whose salary equals `minSalary` is excluded; for a `minSalary` of zero or `NaN`
the step is skipped and every stored record is returned. -/
theorem findAll_minSalary (db : Db) (x : JSNum) :
    (x ≠ .fin 0 → x ≠ .nan →
      Job.findAll (Filter.ofMinSalary (.prim (.num x))) db =
          (.ok ((db.jobs.filter (fun r => decide (SalaryAbove x r))).map JobRow.view), db.tick)
      ∧ ∀ r ∈ db.jobs.filter (fun r => decide (SalaryAbove x r)),
          ∀ k : Int, x = .fin k → r.salary ≠ some k)
    ∧ ((x = .fin 0 ∨ x = .nan) →
      Job.findAll (Filter.ofMinSalary (.prim (.num x))) db
        = (.ok (db.jobs.map JobRow.view), db.tick)) := by
  constructor
  · intro h0 hnan
    constructor
    · rw [findAll_unfold]
      have h1 : (JSVal.prim (.num x)).truthy = true := by
        cases x with
        | nan => exact absurd rfl hnan
        | posInf => rfl
        | negInf => rfl
        | fin q =>
          have hq : q ≠ 0 := fun e => h0 (by rw [e])
          simpa [JSVal.truthy, JSNum.truthy] using hq
      simp only [Filter.ofMinSalary, filterTitle_none, filterEquity_undefined, filterMinSalary,
        h1, if_true]
      rw [filter_view _ (fun r => decide (SalaryAbove x r)) db.jobs]
      intro r
      rw [numberGt_iff]
      rfl
    · intro r hr k hk hs
      have h2 := (List.mem_filter.mp hr).2
      subst hk
      simp [SalaryAbove, JSNum.below, toNumber, hs] at h2
  · intro hx
    rcases hx with rfl | rfl <;> rfl

/-- C2 (witness): salaries 80000, 100000 and 120000 with `minSalary` 90000
give exactly the 100000 and 120000 records. -/
theorem findAll_minSalary_witness :
    JSNum.fin 90000 ≠ .fin 0 ∧ JSNum.fin 90000 ≠ .nan
    ∧ Job.findAll (Filter.ofMinSalary (.prim (.num (.fin 90000)))) fixtureDb =
        (.ok [⟨"doctor", some 100000, some ⟨7, 2⟩, "c2"⟩,
              ⟨"lawyer", some 120000, some ⟨893, 3⟩, "c3"⟩], fixtureDb.tick) :=
  ⟨by decide, by decide,
   (((findAll_minSalary fixtureDb (.fin 90000)).1 (by decide) (by decide)).1).trans
     (by decide)⟩

/-- What the salary step does for any truthy `minSalary`, a text of the route
included: it keeps the records whose salary, a null salary counting as `0`, is
strictly greater than the number `minSalary` is compared as. -/
theorem findAll_minSalary_truthy (db : Db) (v : JSVal) (hv : v.truthy = true) :
    Job.findAll (Filter.ofMinSalary v) db =
      (.ok ((db.jobs.filter (fun r => decide (SalaryAbove v.toNumber r))).map JobRow.view),
        db.tick) := by
  rw [findAll_unfold]
  simp only [Filter.ofMinSalary, filterTitle_none, filterEquity_undefined, filterMinSalary,
    hv, if_true]
  rw [filter_view _ (fun r => decide (SalaryAbove v.toNumber r)) db.jobs]
  intro r
  rw [numberGt_iff]
  rfl

/-- The text `'0'`, as the route passes it for `?minSalary=0`, is truthy: the
step runs and a job whose salary is `0` is not returned, whereas the number `0`
skips the step. -/
theorem findAll_minSalary_text_zero :
    (Job.findAll (Filter.ofMinSalary (.prim (.str "0" (.fin 0)))) internDb).1 = .ok []
    ∧ (Job.findAll (Filter.ofMinSalary (.prim (.num (.fin 0)))) internDb).1
        = .ok [⟨"intern", some 0, none, "c1"⟩] := by
  decide

theorem pow_ten_lt_threshold : 10 ^ 323 < 2 ^ 1075 := by norm_num

/-- C3 (counterexample): (1) the one-element array `['true']`, which the query
string `hasEquity[]=true` produces, is not the string `"true"`, yet
`findAll({hasEquity: ['true']})` drops the fixture job whose equity is `"0"`
instead of returning every stored record; (2) on a store whose only job has
the equity `1e-400`, which is strictly greater than zero,
`findAll({hasEquity: "true"})` returns nothing. -/
theorem findAll_hasEquity_counterexample :
    ((∀ n, arrayOfTrue ≠ JSVal.prim (.str "true" n))
      ∧ (Job.findAll (Filter.ofHasEquity arrayOfTrue) fixtureDb).1
          = .ok [⟨"doctor", some 100000, some ⟨7, 2⟩, "c2"⟩,
                 ⟨"lawyer", some 120000, some ⟨893, 3⟩, "c3"⟩]
      ∧ (Job.findAll (Filter.ofHasEquity arrayOfTrue) fixtureDb).1
          ≠ .ok (fixtureDb.jobs.map JobRow.view))
    ∧ ((Job.findAll (Filter.ofHasEquity (.prim (.str "true" .nan))) tinyEquityDb).1 = .ok []
      ∧ tinyEquityDb.jobs.filter (fun r => decide (HasPositiveEquity r))
          = tinyEquityDb.jobs) := by
  refine ⟨⟨?_, by decide, by decide⟩, by decide, by decide⟩
  intro n h
  cases h

/-- C3 (amended): `findAll({hasEquity: h})` returns, in store order, exactly
the stored records whose equity is strictly greater than zero as a JavaScript
number (null equity, equity `"0"` and a positive equity of at most `2 ^ -1075`,
which converts to `0`, are excluded; a positive equity with at most 323
decimal places is kept) when `h` is the string `"true"` or an array or object
whose conversion to a primitive gives the string `"true"`; it returns every
stored record when `h` is absent or is any other primitive value (null, a
boolean, a number, a string other than `"true"`) or an array or object whose
conversion gives anything else. -/
theorem findAll_hasEquity (db : Db) (h : JSVal) :
    ((∃ n, h = .prim (.str "true" n) ∨ h = .obj (.str "true" n)) →
      Job.findAll (Filter.ofHasEquity h) db =
          (.ok ((db.jobs.filter (fun r => decide (HasEquity r))).map JobRow.view), db.tick)
      ∧ (∀ r ∈ db.jobs.filter (fun r => decide (HasEquity r)),
          r.equity ≠ none ∧ ∀ d, r.equity = some d → 0 < d.coeff)
      ∧ (∀ r ∈ db.jobs, ∀ d, r.equity = some d → 0 < d.coeff → d.scale ≤ 323 →
          r ∈ db.jobs.filter (fun r => decide (HasEquity r))))
    ∧ (((∀ n, h ≠ .prim (.str "true" n)) ∧ (∀ n, h ≠ .obj (.str "true" n))) →
      Job.findAll (Filter.ofHasEquity h) db = (.ok (db.jobs.map JobRow.view), db.tick)) := by
  constructor
  · intro hh
    have h1 : looseEqTrue h = true := by
      obtain ⟨n, rfl | rfl⟩ := hh <;> rfl
    refine ⟨?_, ?_, ?_⟩
    · rw [findAll_unfold]
      simp only [Filter.ofHasEquity, filterTitle_none, filterMinSalary_undefined, filterEquity,
        h1, if_true]
      rw [filter_view _ (fun r => decide (HasEquity r)) db.jobs]
      rintro ⟨i, t, sal, e, c⟩
      cases e <;> simp [HasEquity, numericGtZero, JobRow.view]
    · intro r hr
      have h2 := (List.mem_filter.mp hr).2
      constructor
      · intro hn
        simp [HasEquity, hn] at h2
      · intro d hd
        simp only [HasEquity, hd, decide_eq_true_eq] at h2
        by_contra hneg
        have h3 : d.coeff.toNat = 0 := by
          rw [Int.toNat_eq_zero]
          exact not_lt.mp hneg
        rw [h3, Nat.zero_mul] at h2
        exact absurd h2 (Nat.not_lt_zero _)
    · intro r hr d hd hpos hscale
      rw [List.mem_filter]
      refine ⟨hr, ?_⟩
      simp only [HasEquity, hd, decide_eq_true_eq]
      have h3 : 1 ≤ d.coeff.toNat := by
        have : 0 < d.coeff.toNat := by
          rw [Int.lt_toNat]
          exact hpos
        exact this
      calc 10 ^ d.scale ≤ 10 ^ 323 := Nat.pow_le_pow_right (by decide) hscale
        _ < 2 ^ 1075 := pow_ten_lt_threshold
        _ = 1 * 2 ^ 1075 := (Nat.one_mul _).symm
        _ ≤ d.coeff.toNat * 2 ^ 1075 := Nat.mul_le_mul_right _ h3
  · rintro ⟨hp, ho⟩
    have h1 : looseEqTrue h = false := by
      cases h with
      | prim p =>
        cases p with
        | str s n =>
          have : s ≠ "true" := fun e => hp n (by rw [e])
          simp [looseEqTrue, JSPrim.looseEqTrue, this]
        | _ => rfl
      | obj p =>
        cases p with
        | str s n =>
          have : s ≠ "true" := fun e => ho n (by rw [e])
          simp [looseEqTrue, JSPrim.looseEqTrue, this]
        | _ => rfl
    rw [findAll_unfold]
    simp only [Filter.ofHasEquity, filterTitle_none, filterMinSalary_undefined, filterEquity,
      h1, Bool.false_eq_true, if_false]

/-- C3 (witness): with `hasEquity: "true"` the fixture gives the jobs with
equity `"0.07"` and `"0.893"`; with the boolean `true` it gives all three. -/
theorem findAll_hasEquity_witness :
    Job.findAll (Filter.ofHasEquity (.prim (.str "true" .nan))) fixtureDb =
        (.ok [⟨"doctor", some 100000, some ⟨7, 2⟩, "c2"⟩,
              ⟨"lawyer", some 120000, some ⟨893, 3⟩, "c3"⟩], fixtureDb.tick)
    ∧ Job.findAll (Filter.ofHasEquity (.prim (.bool true))) fixtureDb =
        (.ok (fixtureDb.jobs.map JobRow.view), fixtureDb.tick) :=
  ⟨(((findAll_hasEquity fixtureDb (.prim (.str "true" .nan))).1
        ⟨.nan, Or.inl rfl⟩).1).trans (by decide),
   (findAll_hasEquity fixtureDb (.prim (.bool true))).2
     ⟨fun _ h => (by cases h), fun _ h => (by cases h)⟩⟩

/-- C4: for every store and every filter, a record is in `findAll(filter)`
exactly when it is in the result of `findAll` for each of the three filters
taken alone; the result is a sublist of the stored records in store order; it
is the same for all six orders of applying the three filter steps; and
`findAll()` with no filter returns every stored record in store order. -/
theorem findAll_filters_conjunctive (db : Db) (f : Filter) :
    ∃ L Lt Lm Lh : List JobView,
      Job.findAll f db = (.ok L, db.tick)
      ∧ Job.findAll ⟨f.title, .prim .undefined, .prim .undefined⟩ db = (.ok Lt, db.tick)
      ∧ Job.findAll ⟨none, f.minSalary, .prim .undefined⟩ db = (.ok Lm, db.tick)
      ∧ Job.findAll ⟨none, .prim .undefined, f.hasEquity⟩ db = (.ok Lh, db.tick)
      ∧ (∀ j, j ∈ L ↔ j ∈ Lt ∧ j ∈ Lm ∧ j ∈ Lh)
      ∧ L.Sublist (db.jobs.map JobRow.view)
      ∧ L = filterEquity f.hasEquity (filterTitle f.title
              (filterMinSalary f.minSalary (db.jobs.map JobRow.view)))
      ∧ L = filterMinSalary f.minSalary (filterEquity f.hasEquity
              (filterTitle f.title (db.jobs.map JobRow.view)))
      ∧ L = filterMinSalary f.minSalary (filterTitle f.title
              (filterEquity f.hasEquity (db.jobs.map JobRow.view)))
      ∧ L = filterTitle f.title (filterEquity f.hasEquity
              (filterMinSalary f.minSalary (db.jobs.map JobRow.view)))
      ∧ L = filterTitle f.title (filterMinSalary f.minSalary
              (filterEquity f.hasEquity (db.jobs.map JobRow.view)))
      ∧ Job.findAll Filter.empty db = (.ok (db.jobs.map JobRow.view), db.tick) := by
  obtain ⟨pt, hpt⟩ := filterTitle_eq f.title
  obtain ⟨pm, hpm⟩ := filterMinSalary_eq f.minSalary
  obtain ⟨ph, hph⟩ := filterEquity_eq f.hasEquity
  refine ⟨_, _, _, _, findAll_unfold f db, findAll_unfold _ db, findAll_unfold _ db,
    findAll_unfold _ db, ?_, ?_, ?_, ?_, ?_, ?_, ?_, rfl⟩
  · intro j
    simp only [filterTitle_none, filterMinSalary_undefined, filterEquity_undefined]
    simp only [hpt, hpm, hph, List.mem_filter]
    tauto
  · exact ((filterEquity_sublist _ _).trans (filterMinSalary_sublist _ _)).trans
      (filterTitle_sublist _ _)
  all_goals
    simp only [hpt, hpm, hph, List.filter_filter]
    congr 1
    funext j
    cases pt j <;> cases pm j <;> cases ph j <;> rfl

/-! ## Lemmas on the first row of a selection -/

theorem head?_filter_eq_none {α : Type} (p : α → Bool) (l : List α) :
    (l.filter p).head? = none ↔ ∀ x ∈ l, p x = false := by
  induction l with
  | nil => simp
  | cons a as ih =>
    cases hpa : p a
    · simp [List.filter_cons, hpa, ih]
    · simp [List.filter_cons, hpa]

theorem head?_filter_first {α : Type} (p : α → Bool) (pre : List α) (x : α) (post : List α)
    (hpre : ∀ y ∈ pre, p y = false) (hx : p x = true) :
    ((pre ++ x :: post).filter p).head? = some x := by
  induction pre with
  | nil => simp [List.filter_cons, hx]
  | cons a as ih =>
    have ha : p a = false := hpre a (List.mem_cons_self a as)
    have has : ∀ y ∈ as, p y = false := fun y hy => hpre y (List.mem_cons_of_mem a hy)
    simpa [List.filter_cons, ha] using ih has

theorem exists_first {α : Type} (p : α → Bool) (l : List α) (h : ∃ x ∈ l, p x = true) :
    ∃ pre x post, l = pre ++ x :: post ∧ (∀ y ∈ pre, p y = false) ∧ p x = true := by
  induction l with
  | nil =>
    obtain ⟨x, hx, _⟩ := h
    cases hx
  | cons a as ih =>
    cases hpa : p a
    · have h2 : ∃ x ∈ as, p x = true := by
        obtain ⟨x, hx, hpx⟩ := h
        rcases List.mem_cons.mp hx with rfl | hx2
        · rw [hpa] at hpx
          cases hpx
        · exact ⟨x, hx2, hpx⟩
      obtain ⟨pre, x, post, hl, hpre, hx⟩ := ih h2
      refine ⟨a :: pre, x, post, by simp [hl], ?_, hx⟩
      intro y hy
      rcases List.mem_cons.mp hy with rfl | hy2
      · exact hpa
      · exact hpre y hy2
    · exact ⟨[], a, as, rfl, fun y hy => absurd hy (List.not_mem_nil y), hpa⟩

/-! ## Theorems on `create` -/

/-- C5: for every store and every create input whose title equals the title of
a stored job, `create` throws the `BadRequestError` "Duplicate job: <title>"
after its one `SELECT`, and the table and the identifier counter are as
before. -/
theorem create_duplicate_title (db : Db) (data : NewJob)
    (hdup : ∃ r ∈ db.jobs, r.title = data.title) :
    Job.create data db =
        (.error (.BadRequestError ("Duplicate job: " ++ data.title)), db.tick)
    ∧ (Job.create data db).2.jobs = db.jobs
    ∧ (Job.create data db).2.nextId = db.nextId := by
  have key : Job.create data db =
      (.error (.BadRequestError ("Duplicate job: " ++ data.title)), db.tick) := by
    obtain ⟨pre, x, post, hl, hpre, hx⟩ :=
      exists_first (fun r : JobRow => r.title == data.title) db.jobs
        (by
          obtain ⟨r, hr, ht⟩ := hdup
          exact ⟨r, hr, by simp [ht]⟩)
    have hh := head?_filter_first (fun r : JobRow => r.title == data.title) pre x post hpre hx
    unfold Job.create Db.selectTitle
    simp only [hl, List.head?_map, hh, Option.map_some']
  rw [key]
  exact ⟨rfl, rfl, rfl⟩

/-- C5 (witness): creating the job "author" twice on the fixture; the second
call fails and leaves the four stored jobs as they are. -/
theorem create_duplicate_title_witness :
    (∃ r ∈ (Job.create ⟨"c1", "author", some 75000, some ⟨56, 2⟩⟩ fixtureDb).2.jobs,
        r.title = "author")
    ∧ (Job.create ⟨"c1", "author", some 75000, some ⟨56, 2⟩⟩
          (Job.create ⟨"c1", "author", some 75000, some ⟨56, 2⟩⟩ fixtureDb).2).1
        = .error (.BadRequestError "Duplicate job: author") :=
  ⟨⟨⟨4, "author", some 75000, some ⟨56, 2⟩, "c1"⟩, by decide, rfl⟩,
   (congrArg Prod.fst (create_duplicate_title
      (Job.create ⟨"c1", "author", some 75000, some ⟨56, 2⟩⟩ fixtureDb).2
      (NewJob.mk "c1" "author" (some 75000) (some ⟨56, 2⟩))
      ⟨JobRow.mk 4 "author" (some 75000) (some ⟨56, 2⟩) "c1", by decide, rfl⟩).1).trans
     (by decide)⟩

/-- C6 (counterexample): on the fixture no job is titled "author", yet
`create` fails and stores nothing when the company handle references no
stored company (`"nope"`); it also fails for a salary outside the integer
column (`2147483648`) and for an equity outside `[0, 1]` (`5`). -/
theorem create_rejected_counterexample :
    (∀ r ∈ fixtureDb.jobs, r.title ≠ "author")
    ∧ (Job.create ⟨"nope", "author", some 75000, some ⟨56, 2⟩⟩ fixtureDb).1
        = .error .DatabaseError
    ∧ (Job.findAll Filter.empty
          (Job.create ⟨"nope", "author", some 75000, some ⟨56, 2⟩⟩ fixtureDb).2).1
        = .ok (fixtureDb.jobs.map JobRow.view)
    ∧ (Job.create ⟨"c1", "author", some 2147483648, some ⟨56, 2⟩⟩ fixtureDb).1
        = .error .DatabaseError
    ∧ (Job.create ⟨"c1", "author", some 75000, some ⟨5, 0⟩⟩ fixtureDb).1
        = .error .DatabaseError := by
  decide

/-- C6 (amended): for every store and every create input whose title is not
yet stored and which the store accepts (the company handle references a stored
company, the salary is null or within the integer column, the equity is null
or within `[0, 1]`), `create` returns the inserted row, which carries the
input's four values; a following `findAll()` lists the records stored before,
in their order, followed by the new record, and holds exactly one record with
the input's title, salary, equity and company handle. -/
theorem create_unique_title (db : Db) (data : NewJob)
    (huniq : ∀ r ∈ db.jobs, r.title ≠ data.title)
    (hcompany : data.company_handle ∈ db.companies)
    (hsalary : salaryFits db.maxInt data.salary = true)
    (hequity : equityFits data.equity = true) :
    (Job.create data db).1 = .ok (some (data.row db.nextId))
    ∧ (Job.create data db).2.jobs = db.jobs ++ [data.row db.nextId]
    ∧ (Job.findAll Filter.empty (Job.create data db).2).1
        = .ok (db.jobs.map JobRow.view
            ++ [JobView.mk data.title data.salary data.equity data.company_handle])
    ∧ (db.jobs.map JobRow.view
          ++ [JobView.mk data.title data.salary data.equity data.company_handle]).count
        (JobView.mk data.title data.salary data.equity data.company_handle) = 1 := by
  have hnone : ((db.jobs.filter (fun r => r.title == data.title)).map JobRow.title).head?
      = none := by
    rw [List.head?_map, (head?_filter_eq_none _ _).mpr]
    · rfl
    · intro r hr
      simpa using huniq r hr
  have hc : db.companies.contains data.company_handle = true := by
    simpa using hcompany
  have key : Job.create data db =
      (.ok (some (data.row db.nextId)),
        { jobs := db.jobs ++ [data.row db.nextId], companies := db.companies,
          maxInt := db.maxInt, nextId := db.nextId + 1, issued := db.issued + 1 + 1 }) := by
    unfold Job.create Db.selectTitle
    simp only [hnone]
    unfold Db.insertJob
    simp only [Db.tick, hsalary, hc, hequity, Bool.not_true, Bool.false_eq_true, if_false,
      Bool.or_self]
    rfl
  rw [key]
  refine ⟨rfl, rfl, ?_, ?_⟩
  · rw [findAll_unfold]
    simp [filterTitle, filterMinSalary, filterEquity, looseEqTrue, JSPrim.looseEqTrue,
      JSVal.truthy, Filter.empty, JobRow.view, NewJob.row]
  · rw [List.count_append, List.count_eq_zero_of_not_mem]
    · simp
    · intro hmem
      obtain ⟨r, hr, hv⟩ := List.mem_map.mp hmem
      have : r.title = data.title := congrArg JobView.title hv
      exact huniq r hr this

/-- C6 (witness): creating `{title: "author", salary: 75000, equity: "0.56",
company_handle: "c1"}` on the fixture. -/
theorem create_unique_title_witness :
    (∀ r ∈ fixtureDb.jobs, r.title ≠ "author")
    ∧ (Job.create ⟨"c1", "author", some 75000, some ⟨56, 2⟩⟩ fixtureDb).1
        = .ok (some ⟨4, "author", some 75000, some ⟨56, 2⟩, "c1"⟩)
    ∧ (Job.findAll Filter.empty
          (Job.create ⟨"c1", "author", some 75000, some ⟨56, 2⟩⟩ fixtureDb).2).1
        = .ok [⟨"engineer", some 80000, some ⟨0, 0⟩, "c1"⟩,
               ⟨"doctor", some 100000, some ⟨7, 2⟩, "c2"⟩,
               ⟨"lawyer", some 120000, some ⟨893, 3⟩, "c3"⟩,
               ⟨"author", some 75000, some ⟨56, 2⟩, "c1"⟩] :=
  ⟨by decide,
   (create_unique_title fixtureDb ⟨"c1", "author", some 75000, some ⟨56, 2⟩⟩
      (by decide) (by decide) (by decide) (by decide)).1,
   (create_unique_title fixtureDb ⟨"c1", "author", some 75000, some ⟨56, 2⟩⟩
      (by decide) (by decide) (by decide) (by decide)).2.2.1⟩

/-! ## Theorems on `get` -/

/-- C10: for every store and every company handle, `get` throws
`NotFoundError` exactly when no stored job has that handle; when some job has
it, `get` returns the view `{company_handle, title, salary, equity}` of the
first such job in store order, whatever follows it; the table is unchanged. -/
theorem get_first_of_company (db : Db) (handle : String) :
    ((∃ msg, (Job.get handle db).1 = .error (.NotFoundError msg))
        ↔ ∀ r ∈ db.jobs, r.company_handle ≠ handle)
    ∧ ((∀ r ∈ db.jobs, r.company_handle ≠ handle) →
        (Job.get handle db).1 = .error (.NotFoundError ("No jobs for company: " ++ handle)))
    ∧ (∀ pre r post, db.jobs = pre ++ r :: post →
        (∀ x ∈ pre, x.company_handle ≠ handle) → r.company_handle = handle →
        (Job.get handle db).1 = .ok r.view)
    ∧ ((∃ r ∈ db.jobs, r.company_handle = handle) →
        ∃ r ∈ db.jobs, r.company_handle = handle ∧ (Job.get handle db).1 = .ok r.view)
    ∧ (Job.get handle db).2 = db.tick
    ∧ (Job.get handle db).2.jobs = db.jobs := by
  have hfirst : ∀ pre r post, db.jobs = pre ++ r :: post →
      (∀ x ∈ pre, x.company_handle ≠ handle) → r.company_handle = handle →
      Job.get handle db = (.ok r.view, db.tick) := by
    intro pre r post hl hpre hr
    have hh := head?_filter_first (fun x : JobRow => x.company_handle == handle) pre r post
      (fun y hy => by simpa using hpre y hy) (by simp [hr])
    unfold Job.get Db.selectByHandle
    simp only [hl, List.head?_map, hh, Option.map_some']
  have hnone : (∀ r ∈ db.jobs, r.company_handle ≠ handle) →
      Job.get handle db =
        (.error (.NotFoundError ("No jobs for company: " ++ handle)), db.tick) := by
    intro hno
    have hh := (head?_filter_eq_none (fun x : JobRow => x.company_handle == handle) db.jobs).mpr
      (fun r hr => by simpa using hno r hr)
    unfold Job.get Db.selectByHandle
    simp only [List.head?_map, hh, Option.map_none']
  have hsome : (∃ r ∈ db.jobs, r.company_handle = handle) →
      ∃ r ∈ db.jobs, r.company_handle = handle ∧ Job.get handle db = (.ok r.view, db.tick) := by
    intro hex
    obtain ⟨pre, x, post, hl, hpre, hx⟩ :=
      exists_first (fun r : JobRow => r.company_handle == handle) db.jobs
        (by
          obtain ⟨r, hr, hc⟩ := hex
          exact ⟨r, hr, by simp [hc]⟩)
    have hxc : x.company_handle = handle := by simpa using hx
    refine ⟨x, ?_, hxc, hfirst pre x post hl (fun y hy => by simpa using hpre y hy) hxc⟩
    rw [hl]
    simp
  refine ⟨⟨?_, ?_⟩, ?_, ?_, ?_, ?_, ?_⟩
  · rintro ⟨msg, hmsg⟩ r hr hc
    obtain ⟨x, _, _, hx⟩ := hsome ⟨r, hr, hc⟩
    rw [hx] at hmsg
    cases hmsg
  · intro hno
    exact ⟨_, congrArg Prod.fst (hnone hno)⟩
  · intro hno
    exact congrArg Prod.fst (hnone hno)
  · intro pre r post hl hpre hr
    exact congrArg Prod.fst (hfirst pre r post hl hpre hr)
  · intro hex
    obtain ⟨x, hx1, hx2, hx3⟩ := hsome hex
    exact ⟨x, hx1, hx2, congrArg Prod.fst hx3⟩
  · by_cases hex : ∃ r ∈ db.jobs, r.company_handle = handle
    · obtain ⟨x, _, _, hx⟩ := hsome hex
      rw [hx]
    · rw [hnone (fun r hr hc => hex ⟨r, hr, hc⟩)]
  · by_cases hex : ∃ r ∈ db.jobs, r.company_handle = handle
    · obtain ⟨x, _, _, hx⟩ := hsome hex
      rw [hx]
      rfl
    · rw [hnone (fun r hr hc => hex ⟨r, hr, hc⟩)]
      rfl

/-- C10 (witness): `get("c1")` gives the job "engineer", the first of the two
jobs of `c1`, and `get("nope")` throws `NotFoundError`. -/
theorem get_first_of_company_witness :
    (Job.get "c1" twoJobsDb).1 = .ok ⟨"engineer", some 80000, some ⟨0, 0⟩, "c1"⟩
    ∧ (Job.get "nope" twoJobsDb).1 = .error (.NotFoundError "No jobs for company: nope") :=
  ⟨(get_first_of_company twoJobsDb "c1").2.2.1 []
      ⟨1, "engineer", some 80000, some ⟨0, 0⟩, "c1"⟩
      [⟨2, "doctor", some 100000, some ⟨7, 2⟩, "c2"⟩,
       ⟨3, "lawyer", some 120000, some ⟨893, 3⟩, "c3"⟩,
       ⟨4, "analyst", some 90000, none, "c1"⟩]
      rfl (by decide) rfl,
   ((get_first_of_company twoJobsDb "nope").2.1 (by decide)).trans (by decide)⟩

/-! ## Lemmas on the update statement -/

theorem bound_append (pre : List Val) (v : Val) (rest : List Val) :
    bound (pre ++ v :: rest) (pre.length + 1) = some v := by
  have h : (pre ++ v :: rest).get? pre.length = some v := by
    induction pre with
    | nil => rfl
    | cons a as ih => simpa using ih
  simpa [bound] using h

theorem bindSet_fragments (jsToSql : Field → Col) (data : UpdateData) :
    ∀ (pre rest : List Val),
      bindSet (pre ++ data.map Prod.snd ++ rest)
          (setFragments jsToSql pre.length (data.map Prod.fst))
        = some (data.map (fun e => (jsToSql e.1, e.2))) := by
  induction data with
  | nil =>
    intro pre rest
    rfl
  | cons e es ih =>
    intro pre rest
    have h1 := bound_append pre e.2 (es.map Prod.snd ++ rest)
    have h2 := ih (pre ++ [e.2]) rest
    simp only [List.length_append, List.length_singleton, List.append_assoc,
      List.singleton_append, List.cons_append, List.nil_append] at h2
    simp only [List.map_cons, setFragments, bindSet, List.append_assoc, List.cons_append,
      h1, h2]

theorem valueOf_cons (e : Field × Val) (es : UpdateData) (key : Field) :
    valueOf (e :: es) key = if e.1 = key then some e.2 else valueOf es key := by
  unfold valueOf
  by_cases h : e.1 = key
  · simp [List.find?_cons, h]
  · simp [List.find?_cons, h]

theorem valueOf_absent (data : UpdateData) (key : Field) (h : key ∉ data.map Prod.fst) :
    valueOf data key = none := by
  induction data with
  | nil => rfl
  | cons e es ih =>
    have h1 : e.1 ≠ key := fun h2 => h (by simp [h2])
    have h3 : key ∉ es.map Prod.fst := fun h2 => h (by simp at h2 ⊢; exact Or.inr h2)
    rw [valueOf_cons, if_neg h1, ih h3]

theorem valueOf_present (data : UpdateData) (hkeys : (data.map Prod.fst).Nodup)
    (key : Field) (v : Val) (h : (key, v) ∈ data) : valueOf data key = some v := by
  induction data with
  | nil => cases h
  | cons e es ih =>
    rw [List.map_cons, List.nodup_cons] at hkeys
    rw [valueOf_cons]
    rcases List.mem_cons.mp h with h1 | h1
    · subst h1
      simp
    · have h2 : e.1 ≠ key := by
        intro h3
        apply hkeys.1
        rw [h3]
        exact List.mem_map.mpr ⟨(key, v), h1, rfl⟩
      rw [if_neg h2]
      exact ih hkeys.2 h1

theorem jobCols_injective : Function.Injective jobCols := by
  intro a b h
  cases a <;> cases b <;> simp [jobCols] at h <;> rfl

theorem accepted_readable (maxInt : Int) (data : UpdateData) (h : Accepted maxInt data) :
    Readable maxInt data := by
  intro e he
  have h1 := h e he
  obtain ⟨k, v⟩ := e
  cases k <;> cases v
  all_goals first
    | rfl
    | (simp [Val.accepted] at h1; done)
    | (rename_i s ai an
       cases ai <;> cases an <;> simp [Val.accepted] at h1 <;>
         simp [Val.readable, jobCols, h1])

theorem write_step (maxInt : Int) (k : Field) (v : Val) (es : UpdateData) (r : JobRow)
    (ht : v.accepted maxInt k = true) (hab : valueOf es k = none) :
    ∃ r1, r.write maxInt (jobCols k) v = some r1
      ∧ r1.patched es = r.patched ((k, v) :: es) := by
  obtain ⟨i, t, sal, eq, c⟩ := r
  cases k <;> cases v
  all_goals first
    | (simp [Val.accepted] at ht; done)
    | (simp [JobRow.write, jobCols, JobRow.patched, valueOf_cons, hab]; done)
    | (rename_i s ai an
       cases ai <;> cases an <;> simp [Val.accepted] at ht <;>
         simp [JobRow.write, jobCols, JobRow.patched, valueOf_cons, hab, ht])

theorem writeAll_patched (maxInt : Int) (data : UpdateData)
    (hkeys : (data.map Prod.fst).Nodup) (hacc : Accepted maxInt data) :
    ∀ r : JobRow, r.writeAll maxInt (data.map (fun e => (jobCols e.1, e.2)))
      = some (r.patched data) := by
  induction data with
  | nil =>
    intro r
    cases r
    rfl
  | cons e es ih =>
    intro r
    rw [List.map_cons, List.nodup_cons] at hkeys
    have ht : e.2.accepted maxInt e.1 = true := hacc e (List.mem_cons_self _ _)
    have hts : Accepted maxInt es := fun x hx => hacc x (List.mem_cons_of_mem _ hx)
    have hab := valueOf_absent es e.1 hkeys.1
    obtain ⟨r1, hw, hp⟩ := write_step maxInt e.1 e.2 es r ht hab
    simp only [List.map_cons, JobRow.writeAll, hw]
    rw [ih hkeys.2 hts r1, hp]

theorem writeRows_length (maxInt : Int) (assigns : List (Col × Val)) :
    ∀ l l1 : List JobRow, writeRows maxInt assigns l = some l1 → l1.length = l.length := by
  intro l
  induction l with
  | nil =>
    intro l1 h
    simp only [writeRows, Option.some.injEq] at h
    rw [← h]
  | cons r rs ih =>
    intro l1 h
    simp only [writeRows] at h
    split at h
    · rename_i r1 rs1 _ h2
      simp only [Option.some.injEq] at h
      rw [← h, List.length_cons, List.length_cons, ih rs1 h2]
    · cases h

theorem writeRows_single (maxInt : Int) (assigns : List (Col × Val)) (r r1 : JobRow)
    (h : r.writeAll maxInt assigns = some r1) :
    writeRows maxInt assigns [r] = some [r1] := by
  simp [writeRows, h]

theorem sql_ok (data : UpdateData) (hne : data ≠ []) :
    sqlForPartialUpdate data jobCols
      = .ok (setFragments jobCols 0 (data.map Prod.fst), data.map Prod.snd) := by
  unfold sqlForPartialUpdate
  simp [hne]

theorem sql_cases (data : UpdateData) :
    sqlForPartialUpdate data jobCols = .error (.BadRequestError "No data")
    ∨ sqlForPartialUpdate data jobCols
      = .ok (setFragments jobCols 0 (data.map Prod.fst), data.map Prod.snd) := by
  cases data with
  | nil => exact Or.inl rfl
  | cons e es => exact Or.inr (sql_ok _ (List.cons_ne_nil e es))

theorem updateJobs_cases (db : Db) (setCols : SetCols) (whereIdx : Nat) (params : List Val) :
    (db.updateJobs setCols whereIdx params).1 = .error .DatabaseError
    ∨ ∃ (target : Option Int) (updated : List JobRow),
        (bound params whereIdx).bind (readId db.maxInt) = some target
        ∧ updated.length = (db.jobs.filter (fun r => target == some r.id)).length
        ∧ (db.updateJobs setCols whereIdx params).1 = .ok (updated.map JobRow.fields) := by
  unfold Db.updateJobs
  cases hb : bindSet params setCols with
  | none => exact Or.inl rfl
  | some assigns =>
    cases ht : (bound params whereIdx).bind (readId db.maxInt) with
    | none => exact Or.inl rfl
    | some target =>
      simp only []
      split
      · exact Or.inl rfl
      · cases hw : writeRows db.maxInt assigns
            (db.jobs.filter (fun r => target == some r.id)) with
        | none => exact Or.inl rfl
        | some updated =>
          exact Or.inr ⟨target, updated, rfl, writeRows_length _ _ _ _ hw, rfl⟩

/-- The run of `update` on a non-empty map with distinct keys whose values the
store can read, for an identifier the store can read. -/
theorem update_run (db : Db) (id : Val) (data : UpdateData) (target : Option Int)
    (hne : data ≠ []) (hkeys : (data.map Prod.fst).Nodup)
    (hread : Readable db.maxInt data) (hid : readId db.maxInt id = some target) :
    Job.update id data db =
      match writeRows db.maxInt (data.map (fun e => (jobCols e.1, e.2)))
          (db.jobs.filter (fun r => target == some r.id)) with
      | none => (.error .DatabaseError, db.tick)
      | some updated =>
        match (updated.map JobRow.fields).head? with
        | none =>
          (.error (.NotFoundError ("No company: " ++ id.jsString)),
            { db.tick with
              jobs := db.jobs.filter (fun r => !(target == some r.id)) ++ updated })
        | some job =>
          (.ok job,
            { db.tick with
              jobs := db.jobs.filter (fun r => !(target == some r.id)) ++ updated }) := by
  have hbind : bindSet (data.map Prod.snd ++ [id])
      (setFragments jobCols 0 (data.map Prod.fst))
      = some (data.map (fun e => (jobCols e.1, e.2))) := by
    simpa using bindSet_fragments jobCols data [] [id]
  have hwhere : bound (data.map Prod.snd ++ [id]) ((data.map Prod.snd).length + 1)
      = some id := bound_append (data.map Prod.snd) id []
  have hnodup : ((data.map (fun e => (jobCols e.1, e.2))).map Prod.fst).Nodup := by
    have : (data.map (fun e => (jobCols e.1, e.2))).map Prod.fst
        = (data.map Prod.fst).map jobCols := by
      simp [List.map_map, Function.comp_def]
    rw [this]
    exact hkeys.map jobCols_injective
  have hall : (data.map (fun e => (jobCols e.1, e.2))).all
      (fun a => a.2.readable db.maxInt a.1) = true := by
    rw [List.all_eq_true]
    intro a ha
    obtain ⟨e, he, rfl⟩ := List.mem_map.mp ha
    exact hread e he
  have hemp : (data.map (fun e => (jobCols e.1, e.2))).isEmpty = false := by
    cases data with
    | nil => exact absurd rfl hne
    | cons e es => rfl
  unfold Job.update Db.updateJobs
  simp only [sql_ok data hne, hbind, hwhere, Option.some_bind, hid, hemp, hnodup, hall,
    decide_True, Bool.not_true, Bool.or_false, Bool.false_eq_true, if_false]
  cases writeRows db.maxInt (data.map (fun e => (jobCols e.1, e.2)))
      (db.jobs.filter (fun r => target == some r.id)) with
  | none => rfl
  | some updated => rfl

theorem filter_no_hit (target : Option Int) (l : List JobRow)
    (h : ∀ r ∈ l, target ≠ some r.id) :
    l.filter (fun r => target == some r.id) = [] := by
  rw [List.filter_eq_nil_iff]
  intro x hx
  simpa using h x hx

theorem filter_not_hit (target : Option Int) (l : List JobRow)
    (h : ∀ r ∈ l, target ≠ some r.id) :
    l.filter (fun r => !(target == some r.id)) = l := by
  rw [List.filter_eq_self]
  intro x hx
  simpa using h x hx

theorem filter_hit_pos (target : Option Int) (l : List JobRow)
    (h : ∃ r ∈ l, target = some r.id) :
    0 < (l.filter (fun r => target == some r.id)).length := by
  obtain ⟨r, hr, ht⟩ := h
  apply List.length_pos_of_mem
  exact List.mem_filter.mpr ⟨hr, by simp [ht]⟩

/-- With a stored job of the identifier, `update` never throws `NotFoundError`,
whatever the map holds. -/
theorem update_stored (db : Db) (id : Val) (data : UpdateData) (target : Option Int)
    (hid : readId db.maxInt id = some target) (hex : ∃ r ∈ db.jobs, target = some r.id)
    (msg : String) : (Job.update id data db).1 ≠ .error (.NotFoundError msg) := by
  unfold Job.update
  rcases sql_cases data with hs | hs
  · rw [hs]
    intro h
    cases h
  · rw [hs]
    simp only [List.length_map]
    have hb : bound (data.map Prod.snd ++ [id]) (data.length + 1) = some id := by
      have := bound_append (data.map Prod.snd) id []
      simpa using this
    rcases updateJobs_cases db (setFragments jobCols 0 (data.map Prod.fst)) (data.length + 1)
        (data.map Prod.snd ++ [id]) with hu | ⟨t, updated, ht, hlen, hu⟩
    · generalize db.updateJobs _ _ _ = res at hu ⊢
      obtain ⟨out, db1⟩ := res
      simp only at hu
      subst hu
      intro h
      cases h
    · rw [hb, Option.some_bind, hid, Option.some.injEq] at ht
      subst ht
      have hpos := filter_hit_pos target db.jobs hex
      rw [← hlen] at hpos
      generalize db.updateJobs _ _ _ = res at hu ⊢
      obtain ⟨out, db1⟩ := res
      simp only at hu
      subst hu
      cases updated with
      | nil => exact absurd hpos (Nat.lt_irrefl 0)
      | cons u us =>
        intro h
        cases h

/-! ## Theorems on `update` and `remove` -/

/-- C7: for every store and every identifier, stored or not, `update(id, {})`
throws a `BadRequestError` and never a `NotFoundError`; the database is the one
it was called with, table and statement count included, so that no statement
has been issued. -/
theorem update_empty_data (db : Db) (id : Val) :
    (∃ msg, Job.update id [] db = (.error (.BadRequestError msg), db))
    ∧ (∀ msg, (Job.update id [] db).1 ≠ .error (.NotFoundError msg))
    ∧ (Job.update id [] db).2.issued = db.issued
    ∧ (Job.update id [] db).2.jobs = db.jobs := by
  have key : Job.update id [] db = (.error (.BadRequestError "No data"), db) := rfl
  rw [key]
  refine ⟨⟨_, rfl⟩, ?_, rfl, rfl⟩
  intro msg h
  cases h

/-- C8 (counterexample): on the fixture no stored job has the identifier
`'c1'`, `2147483648` or `999999`, yet `remove('c1')` and `update('c1', ...)`
fail in the store, not with `NotFoundError`, because `'c1'` is no integer; so
does `remove(2147483648)`, whose identifier is outside the integer column; and
so does `update(999999, {salary: 'abc'})`, whose value the store cannot read
as a salary. -/
theorem update_remove_unreadable_counterexample :
    (∀ r ∈ fixtureDb.jobs, r.id ≠ 2147483648 ∧ r.id ≠ 999999)
    ∧ (Job.remove (Val.ofText "c1") fixtureDb).1 = .error .DatabaseError
    ∧ (Job.update (Val.ofText "c1") updateData fixtureDb).1 = .error .DatabaseError
    ∧ (Job.remove (Val.ofInt 2147483648) fixtureDb).1 = .error .DatabaseError
    ∧ (Job.update (Val.ofInt 999999) [(.salary, Val.ofText "abc")] fixtureDb).1
        = .error .DatabaseError := by
  decide

/-- C8 (amended): for every store and every identifier the store can read
(null, or an integer within the identifier column, given as a number or as its
text): if no stored job has the identifier, then `remove` and, for every
non-empty field-update map (each key once) whose values the store can read for
their columns, `update` both throw `NotFoundError` and the table is as before;
if a stored job
has the identifier, then `remove` returns normally and `update`, whatever the
map, does not throw `NotFoundError`. -/
theorem update_remove_not_found (db : Db) (id : Val) (data : UpdateData)
    (target : Option Int) (hid : readId db.maxInt id = some target) :
    ((∀ r ∈ db.jobs, target ≠ some r.id) →
      (Job.remove id db).1 = .error (.NotFoundError ("No company: " ++ id.jsString))
      ∧ (Job.remove id db).2.jobs = db.jobs
      ∧ (data ≠ [] → (data.map Prod.fst).Nodup → Readable db.maxInt data →
          (Job.update id data db).1
            = .error (.NotFoundError ("No company: " ++ id.jsString))
          ∧ (Job.update id data db).2.jobs = db.jobs))
    ∧ ((∃ r ∈ db.jobs, target = some r.id) →
      (Job.remove id db).1 = .ok ()
      ∧ (∀ msg, (Job.remove id db).1 ≠ .error (.NotFoundError msg))
      ∧ (∀ msg, (Job.update id data db).1 ≠ .error (.NotFoundError msg))) := by
  constructor
  · intro hno
    have hr : Job.remove id db =
        (.error (.NotFoundError ("No company: " ++ id.jsString)),
          { db.tick with jobs := db.jobs }) := by
      unfold Job.remove Db.deleteJob
      simp only [hid, filter_no_hit target db.jobs hno, filter_not_hit target db.jobs hno,
        List.head?_nil]
    refine ⟨by rw [hr], by rw [hr], ?_⟩
    intro hne hkeys hread
    have hu := update_run db id data target hne hkeys hread hid
    rw [filter_no_hit target db.jobs hno, filter_not_hit target db.jobs hno] at hu
    simp only [writeRows, List.map_nil, List.head?_nil, List.append_nil] at hu
    rw [hu]
    exact ⟨rfl, rfl⟩
  · intro hex
    have hpos := filter_hit_pos target db.jobs hex
    have hr : (Job.remove id db).1 = .ok () := by
      unfold Job.remove Db.deleteJob
      simp only [hid]
      cases hf : db.jobs.filter (fun r => target == some r.id) with
      | nil =>
        rw [hf] at hpos
        exact absurd hpos (Nat.lt_irrefl 0)
      | cons a as => rfl
    refine ⟨hr, ?_, ?_⟩
    · intro msg h
      rw [hr] at h
      cases h
    · intro msg
      exact update_stored db id data target hid hex msg

/-- C8 (witness): on the fixture, `update(999999, {salary: 280000, equity:
"0.99"})` and `remove(12314)` throw `NotFoundError`, while `remove(1)` returns
normally. -/
theorem update_remove_not_found_witness :
    (Job.remove (Val.ofInt 12314) fixtureDb).1
        = .error (.NotFoundError "No company: 12314")
    ∧ (Job.update (Val.ofInt 999999) updateData fixtureDb).1
        = .error (.NotFoundError "No company: 999999")
    ∧ (Job.update (Val.ofInt 999999) updateData fixtureDb).2.jobs = fixtureDb.jobs
    ∧ (Job.remove (Val.ofInt 1) fixtureDb).1 = .ok () :=
  ⟨(((update_remove_not_found fixtureDb (Val.ofInt 12314) updateData (some 12314)
        (by decide)).1 (by decide)).1).trans (by decide),
   ((((update_remove_not_found fixtureDb (Val.ofInt 999999) updateData (some 999999)
        (by decide)).1 (by decide)).2.2 (by decide) (by decide) (by decide)).1).trans
     (by decide),
   (((update_remove_not_found fixtureDb (Val.ofInt 999999) updateData (some 999999)
        (by decide)).1 (by decide)).2.2 (by decide) (by decide) (by decide)).2,
   ((update_remove_not_found fixtureDb (Val.ofInt 1) updateData (some 1)
        (by decide)).2
        ⟨⟨1, "engineer", some 80000, some ⟨0, 0⟩, "c1"⟩, by decide, rfl⟩).1⟩

/-- C9 (counterexample): on the fixture, where job `1` is stored,
`update(1, {equity: 5})`, `update(1, {title: null})` and
`update(1, {salary: 2147483648})` are rejected by the store (an equity outside
`[0, 1]`, a null title, a salary outside the integer column): `update` throws
and the supplied value is not stored. -/
theorem update_rejected_counterexample :
    ((Job.update (Val.ofInt 1) [(.equity, Val.ofInt 5)] fixtureDb).1 = .error .DatabaseError
      ∧ (Job.update (Val.ofInt 1) [(.equity, Val.ofInt 5)] fixtureDb).2.jobs = fixtureDb.jobs)
    ∧ ((Job.update (Val.ofInt 1) [(.title, .null)] fixtureDb).1 = .error .DatabaseError
      ∧ (Job.update (Val.ofInt 1) [(.title, .null)] fixtureDb).2.jobs = fixtureDb.jobs)
    ∧ ((Job.update (Val.ofInt 1) [(.salary, Val.ofInt 2147483648)] fixtureDb).1
        = .error .DatabaseError
      ∧ (Job.update (Val.ofInt 1) [(.salary, Val.ofInt 2147483648)] fixtureDb).2.jobs
        = fixtureDb.jobs) := by
  decide

/-- C9 (amended): for every store in which exactly the job `r` has the
identifier, and every non-empty field-update map over title, salary and equity
(each key once) whose values the store accepts (a text for the title, an
integer within the integer column or null for the salary, a decimal within
`[0, 1]` or null for the equity), `update` returns the title, salary and equity
of the patched job; afterwards the table holds the patched job in the place of
`r` and every other job as it was (the order of the rows aside); the patched
job keeps the identifier and the company handle of `r`, holds the supplied
value in each column whose key is present (null for a key present with null)
and the former value in each column whose key is absent. -/
theorem update_sets_supplied_fields (db : Db) (id : Val) (n : Int) (data : UpdateData)
    (hne : data ≠ []) (hkeys : (data.map Prod.fst).Nodup) (hacc : Accepted db.maxInt data)
    (hid : readId db.maxInt id = some (some n))
    (pre : List JobRow) (r : JobRow) (post : List JobRow)
    (hl : db.jobs = pre ++ r :: post) (hr : r.id = n)
    (hpre : ∀ x ∈ pre, x.id ≠ n) (hpost : ∀ x ∈ post, x.id ≠ n) :
    (Job.update id data db).1 = .ok (r.patched data).fields
    ∧ (Job.update id data db).2.jobs.Perm (pre ++ r.patched data :: post)
    ∧ (r.patched data).id = r.id
    ∧ (r.patched data).company_handle = r.company_handle
    ∧ (∀ s i d, (Field.title, Val.text s i d) ∈ data → (r.patched data).title = s)
    ∧ (Field.title ∉ data.map Prod.fst → (r.patched data).title = r.title)
    ∧ (∀ s k d, (Field.salary, Val.text s (some k) d) ∈ data →
        (r.patched data).salary = some k)
    ∧ ((Field.salary, Val.null) ∈ data → (r.patched data).salary = none)
    ∧ (Field.salary ∉ data.map Prod.fst → (r.patched data).salary = r.salary)
    ∧ (∀ s i d, (Field.equity, Val.text s i (some d)) ∈ data →
        (r.patched data).equity = some d)
    ∧ ((Field.equity, Val.null) ∈ data → (r.patched data).equity = none)
    ∧ (Field.equity ∉ data.map Prod.fst → (r.patched data).equity = r.equity) := by
  have hhit : db.jobs.filter (fun x => some n == some x.id) = [r] := by
    rw [hl, List.filter_append, List.filter_cons]
    have h1 : pre.filter (fun x => some n == some x.id) = [] :=
      filter_no_hit (some n) pre (fun x hx h => hpre x hx (by simpa using h.symm))
    have h2 : post.filter (fun x => some n == some x.id) = [] :=
      filter_no_hit (some n) post (fun x hx h => hpost x hx (by simpa using h.symm))
    have h3 : (some n == some r.id) = true := by simp [hr]
    rw [h1, h2, if_pos h3]
    rfl
  have hrest : db.jobs.filter (fun x => !(some n == some x.id)) = pre ++ post := by
    rw [hl, List.filter_append, List.filter_cons]
    have h1 : pre.filter (fun x => !(some n == some x.id)) = pre :=
      filter_not_hit (some n) pre (fun x hx h => hpre x hx (by simpa using h.symm))
    have h2 : post.filter (fun x => !(some n == some x.id)) = post :=
      filter_not_hit (some n) post (fun x hx h => hpost x hx (by simpa using h.symm))
    have h3 : ¬ ((!(some n == some r.id)) = true) := by simp [hr]
    rw [h1, h2, if_neg h3]
  have hu := update_run db id data (some n) hne hkeys (accepted_readable _ _ hacc) hid
  rw [hhit, hrest, writeRows_single _ _ r _ (writeAll_patched db.maxInt data hkeys hacc r)] at hu
  simp only [List.map_cons, List.map_nil, List.head?_cons] at hu
  rw [hu]
  refine ⟨rfl, ?_, rfl, rfl, ?_, ?_, ?_, ?_, ?_, ?_, ?_, ?_⟩
  · show (pre ++ post ++ [r.patched data]).Perm (pre ++ r.patched data :: post)
    rw [List.append_assoc]
    exact List.Perm.append_left pre (List.perm_append_singleton _ _)
  · intro s i d hs
    simp [JobRow.patched, valueOf_present data hkeys _ _ hs]
  · intro hs
    simp [JobRow.patched, valueOf_absent data _ hs]
  · intro s k d hs
    simp [JobRow.patched, valueOf_present data hkeys _ _ hs]
  · intro hs
    simp [JobRow.patched, valueOf_present data hkeys _ _ hs]
  · intro hs
    simp [JobRow.patched, valueOf_absent data _ hs]
  · intro s i d hs
    simp [JobRow.patched, valueOf_present data hkeys _ _ hs]
  · intro hs
    simp [JobRow.patched, valueOf_present data hkeys _ _ hs]
  · intro hs
    simp [JobRow.patched, valueOf_absent data _ hs]

/-- C9 (witness): `update(1, {salary: 280000, equity: "0.99"})` on the fixture
returns `{title: "engineer", salary: 280000, equity: "0.99"}`; afterwards the
table holds the other two jobs and the job "engineer" with these values, whose
company handle stays `c1`. -/
theorem update_sets_supplied_fields_witness :
    (Job.update (Val.ofInt 1) updateData fixtureDb).1
        = .ok ⟨"engineer", some 280000, some ⟨99, 2⟩⟩
    ∧ (Job.update (Val.ofInt 1) updateData fixtureDb).2.jobs.Perm
        [⟨1, "engineer", some 280000, some ⟨99, 2⟩, "c1"⟩,
         ⟨2, "doctor", some 100000, some ⟨7, 2⟩, "c2"⟩,
         ⟨3, "lawyer", some 120000, some ⟨893, 3⟩, "c3"⟩] :=
  ⟨((update_sets_supplied_fields fixtureDb (Val.ofInt 1) 1 updateData
        (by decide) (by decide) (by decide) (by decide) []
        ⟨1, "engineer", some 80000, some ⟨0, 0⟩, "c1"⟩
        [⟨2, "doctor", some 100000, some ⟨7, 2⟩, "c2"⟩,
         ⟨3, "lawyer", some 120000, some ⟨893, 3⟩, "c3"⟩]
        rfl rfl (by decide) (by decide)).1).trans (by decide),
   (update_sets_supplied_fields fixtureDb (Val.ofInt 1) 1 updateData
        (by decide) (by decide) (by decide) (by decide) []
        ⟨1, "engineer", some 80000, some ⟨0, 0⟩, "c1"⟩
        [⟨2, "doctor", some 100000, some ⟨7, 2⟩, "c2"⟩,
         ⟨3, "lawyer", some 120000, some ⟨893, 3⟩, "c3"⟩]
        rfl rfl (by decide) (by decide)).2.1⟩

end Jobly
